import Mathlib

/-!
Verification of the `server generate` configuration-bundle scaffolding
pipeline of natscli (`cli/server_generate.go`, `generateAction`).

The CLI action is embedded as a pure Lean function over an abstract
`World` bundling the external collaborators it consults (filesystem
existence check, bundle fetchers, authority store, renderer outcome).
Besides its final result the embedded action returns the ordered list of
`Step`s it performed, so that ordering and "stage never invoked" claims
become statements about that trace.

Go's `strings.Contains` and the scheme-extraction part of `net/url.Parse`
(`getScheme`) are embedded faithfully from the Go standard library; the
remainder of URL parsing (host/port/escaping validation) is abstracted as
a `World` parameter, since only the scheme decides the branches taken by
`generateAction`.
-/

/-- Values held by the substitution environment: the dynamically typed
string/number/boolean values of the spec's data model. -/
inductive EnvVal
  | str (s : String)
  | num (n : Int)
  | bool (b : Bool)
deriving DecidableEq

/-- The substitution environment: a key/value mapping. -/
abbrev Env := List (String × EnvVal)

/-- First-match association lookup in an environment. -/
def lookupEnv : Env → String → Option EnvVal
  | [], _ => none
  | (k, v) :: rest, n => if k = n then some v else lookupEnv rest n

/-- Rendering an environment value to text. -/
def EnvVal.render : EnvVal → String
  | .str s => s
  | .num n => toString n
  | .bool b => toString b

/-- One token of a template body: literal text or a named placeholder. -/
inductive TmplItem
  | lit (s : String)
  | var (name : String)

/-- Declared bundle preconditions (`b.Requires` in the Go code); the only
requirement consulted by `generateAction` is `Operator`. -/
structure Requires where
  operator : Bool

/-- A declared bundle variable with an optional default. -/
structure VarDecl where
  name : String
  dflt : Option EnvVal

/-- One templated file declaration: relative target path, template body,
optional boolean condition over the environment. -/
structure Entry where
  path : String
  template : List TmplItem
  condition : Option (Env → Bool)

/-- A parsed configuration bundle (`scaffold.Bundle`); `vars` stands for
the bundle's declared variables. -/
structure Bundle where
  requires : Requires
  vars : List VarDecl
  entries : List Entry

/-- Does the pattern occur as a leading segment of the list?  Helper for
the embedding of Go's `strings.Contains`. -/
def listPrefixOf : List Char → List Char → Bool
  | [], _ => true
  | _ :: _, [] => false
  | a :: as, b :: bs => a == b && listPrefixOf as bs

/-- Does the pattern occur anywhere in the list? -/
def listContains (pat : List Char) : List Char → Bool
  | [] => pat.isEmpty
  | c :: cs => listPrefixOf pat (c :: cs) || listContains pat cs

/-- Go `strings.Contains s pat`: substring containment. -/
def containsSub (s pat : String) : Bool := listContains pat.data s.data

/-- Result of Go `net/url`'s scheme extraction: either a (possibly empty)
scheme together with the remainder, or the "missing protocol scheme"
error raised when the string starts with a colon. -/
inductive GetSchemeRes
  | ok (scheme rest : String)
  | errMissingScheme
deriving DecidableEq

/-- ASCII letter, as accepted anywhere in a URL scheme. -/
def isSchemeAlpha (c : Char) : Bool :=
  ('a' ≤ c && c ≤ 'z') || ('A' ≤ c && c ≤ 'Z')

/-- Digit or `+`/`-`/`.`, accepted in a scheme except at position 0. -/
def isSchemeOther (c : Char) : Bool :=
  ('0' ≤ c && c ≤ '9') || c == '+' || c == '-' || c == '.'

/-- Iteration core of Go `net/url.getScheme`: walks the characters with
their index, mirroring the Go loop case for case. -/
def getSchemeAux (orig : List Char) : Nat → List Char → GetSchemeRes
  | _, [] => .ok "" (String.mk orig)
  | i, c :: cs =>
    if isSchemeAlpha c then getSchemeAux orig (i + 1) cs
    else if isSchemeOther c then
      (if i = 0 then .ok "" (String.mk orig) else getSchemeAux orig (i + 1) cs)
    else if c = ':' then
      (if i = 0 then .errMissingScheme
       else .ok (String.mk (orig.take i)) (String.mk (orig.drop (i + 1))))
    else .ok "" (String.mk orig)

/-- Go `net/url.getScheme`. -/
def getScheme (s : String) : GetSchemeRes := getSchemeAux s.data 0 s.data

/-- The slice of a Go `url.URL` that `generateAction` inspects: the
extracted scheme, plus the raw source string handed to the fetcher.
(Go lowercases the scheme; lowercasing preserves emptiness, the only
property consulted, so it is omitted.) -/
structure GoUrl where
  scheme : String
  raw : String
deriving DecidableEq

/-- Errors of the URL parser: the missing-protocol-scheme error from
scheme extraction, or a failure in the remainder of parsing. -/
inductive UrlErr
  | missingScheme
  | parseFail
deriving DecidableEq

/-- Go `net/url.Parse`, restricted to what `generateAction` observes:
scheme extraction is embedded faithfully; whether the remainder of the
URL parses is abstracted as the predicate `restValid`. -/
def urlParse (restValid : String → Bool) (s : String) : Except UrlErr GoUrl :=
  match getScheme s with
  | .errMissingScheme => .error .missingScheme
  | .ok sch _ => if restValid s then .ok ⟨sch, s⟩ else .error .parseFail

/-- The errors `generateAction` can return, one constructor per `return`
site in the Go code; collaborator failures carry their message. -/
inductive GenErr
  | targetExists (t : String)
  | urlParseErr (s : String)
  | invalidURL (s : String)
  | resolveErr (m : String)
  | authErr (m : String)
  | noOperatorFound
  | runErr (m : String)
deriving DecidableEq

/-- The invalid-source errors of the spec's taxonomy: a source containing
a scheme separator that fails URL parsing or carries no scheme. -/
def GenErr.isInvalidSource : GenErr → Bool
  | .urlParseErr _ => true
  | .invalidURL _ => true
  | _ => false

/-- The externally visible steps `generateAction` performs, in order:
fetching a bundle from a URL, reading one from a local file, obtaining
the authority-store handle, listing its operators, building the
environment, and invoking the renderer. -/
inductive Step
  | resolveUrl (u : GoUrl)
  | resolveFile (path : String)
  | getAuthBuilder
  | listOperators
  | buildEnv (env : Env)
  | render (target : String) (env : Env) (traceFlag : Bool)
deriving DecidableEq

/-- Which steps write to the filesystem.  Per the spec, source resolution
performs network or filesystem reads only, and the requirement validator
is read-only; the renderer (`Bundle.Run`) is the only writing stage. -/
def Step.writes : Step → Bool
  | .render _ _ _ => true
  | _ => false

/-- Steps of the source-resolution stage. -/
def Step.isResolve : Step → Bool
  | .resolveUrl _ => true
  | .resolveFile _ => true
  | _ => false

/-- The authority store handle (`au.GetAuthBuilder()` result): it exposes
the list of configured operators. -/
structure AuthBuilder where
  operators : List String

/-- The external collaborators of `generateAction`, abstracted: the
filesystem existence test, the post-scheme URL validity predicate, the
two bundle fetchers, the authority-store handle acquisition, the
renderer's outcome, and the CLI trace flag. -/
structure World where
  fileExists : String → Bool
  restValid : String → Bool
  fromUrl : GoUrl → Except String Bundle
  fromFile : String → Except String Bundle
  authBuilder : Except String AuthBuilder
  runResult : Bundle → String → Env → Bool → Option String
  traceFlag : Bool

/-- The source-classification switch of `generateAction`: a source
containing "://" is parsed as a URL and fetched remotely, anything else
is read as a local file.  Returns the resolved bundle or the error, and
the resolution steps performed. -/
def resolveStep (w : World) (source : String) : Except GenErr Bundle × List Step :=
  if containsSub source "://" then
    match urlParse w.restValid source with
    | .error _ => (.error (.urlParseErr source), [])
    | .ok uri =>
      if uri.scheme = "" then (.error (.invalidURL source), [])
      else
        match w.fromUrl uri with
        | .error m => (.error (.resolveErr m), [.resolveUrl uri])
        | .ok b => (.ok b, [.resolveUrl uri])
  else
    match w.fromFile source with
    | .error m => (.error (.resolveErr m), [.resolveFile source])
    | .ok b => (.ok b, [.resolveFile source])

/-- The environment literal built by `generateAction`: exactly the two
reserved keys. -/
def mkEnv (target source : String) : Env :=
  [("_target", .str target), ("_source", .str source)]

/-- The tail of `generateAction` once requirements have passed: build the
environment and invoke `b.Run(target, env, trace)`. -/
def finishRun (w : World) (source target : String) (b : Bundle) (steps : List Step) :
    Option GenErr × List Step :=
  match w.runResult b target (mkEnv target source) w.traceFlag with
  | some m => (some (.runErr m),
      steps ++ [.buildEnv (mkEnv target source),
                .render target (mkEnv target source) w.traceFlag])
  | none => (none,
      steps ++ [.buildEnv (mkEnv target source),
                .render target (mkEnv target source) w.traceFlag])

/-- Embedding of `generateAction` (cli/server_generate.go): target
existence check, source classification and resolution, operator
requirement validation against the authority store, environment
construction, and the render call — returning the Go function's error
result together with the ordered step trace. -/
def generateAction (w : World) (source target : String) : Option GenErr × List Step :=
  if w.fileExists target then (some (.targetExists target), [])
  else
    match resolveStep w source with
    | (.error e, steps) => (some e, steps)
    | (.ok b, steps) =>
      if b.requires.operator then
        match w.authBuilder with
        | .error m => (some (.authErr m), steps ++ [.getAuthBuilder])
        | .ok auth =>
          if auth.operators.isEmpty then
            (some .noOperatorFound, steps ++ [.getAuthBuilder, .listOperators])
          else
            finishRun w source target b (steps ++ [.getAuthBuilder, .listOperators])
      else
        finishRun w source target b steps

/-- Modelled from the spec: the template renderer of `internal/scaffold`
(only its caller is under src).  Renders one template body by
substituting environment values into named placeholders; an undefined
placeholder fails with a render error naming the missing key. -/
def renderTmpl (env : Env) : List TmplItem → Except String String
  | [] => .ok ""
  | .lit s :: rest =>
    match renderTmpl env rest with
    | .error m => .error m
    | .ok r => .ok (s ++ r)
  | .var n :: rest =>
    match lookupEnv env n with
    | none => .error ("undefined template key " ++ n)
    | some v =>
      match renderTmpl env rest with
      | .error m => .error m
      | .ok r => .ok (EnvVal.render v ++ r)

/-- Modelled from the spec: an entry is rendered unless it declares a
condition that evaluates to false against the environment. -/
def entryEnabled (env : Env) (e : Entry) : Bool :=
  match e.condition with
  | none => true
  | some f => f env

/-- Modelled from the spec: the renderer walks the bundle's entries in
declaration order, skips entries whose condition is false, renders each
remaining template, and aborts on the first failure.  The result is the
output tree as a list of (relative path, rendered bytes) pairs. -/
def runEntries (env : Env) : List Entry → Except String (List (String × String))
  | [] => .ok []
  | e :: rest =>
    if entryEnabled env e then
      match renderTmpl env e.template with
      | .error m => .error m
      | .ok bytes =>
        match runEntries env rest with
        | .error m => .error m
        | .ok tl => .ok ((e.path, bytes) :: tl)
    else runEntries env rest

/-- Modelled from the spec: `scaffold.Bundle.Run` (not under src) — fail
if the target already exists, otherwise materialize the rendered entries
under the target directory.  The produced tree is the list of (absolute
path, bytes) pairs, the absolute path being the target joined with the
entry's relative path. -/
def scaffoldRun (fileExists : String → Bool) (target : String) (b : Bundle)
    (env : Env) (_traceFlag : Bool) : Except String (List (String × String)) :=
  if fileExists target then .error ("target directory " ++ target ++ " already exist")
  else
    match runEntries env b.entries with
    | .error m => .error m
    | .ok tree => .ok (tree.map (fun pr => (target ++ "/" ++ pr.1, pr.2)))

/-- Strips a leading `target ++ "/"` from an absolute output path,
recovering the entry-relative path. -/
def relOf (target abs : String) : String :=
  String.mk (abs.data.drop (target.length + 1))

/-- The output tree of a run made target-relative. -/
def relTree (target : String) (res : Except String (List (String × String))) :
    Except String (List (String × String)) :=
  match res with
  | .error m => .error m
  | .ok tree => .ok (tree.map (fun pr => (relOf target pr.1, pr.2)))

/-- Concrete bundles and worlds used by the witness theorems. -/
def bundlePlain : Bundle :=
  { requires := { operator := false },
    vars := [{ name := "name", dflt := some (.str "world") }],
    entries := [{ path := "config.txt",
                  template := [.lit "Hello ", .var "name"],
                  condition := none }] }

/-- A bundle that declares the operator requirement. -/
def bundleOp : Bundle :=
  { requires := { operator := true }, vars := [], entries := [] }

/-- A world in which every collaborator succeeds and the resolved bundle
has no operator requirement. -/
def wPlain : World :=
  { fileExists := fun p => p == "/occupied",
    restValid := fun _ => true,
    fromUrl := fun _ => .ok bundlePlain,
    fromFile := fun _ => .ok bundlePlain,
    authBuilder := .ok ⟨["OP"]⟩,
    runResult := fun _ _ _ _ => none,
    traceFlag := false }

/-- Like `wPlain` but the resolved bundle requires an operator. -/
def wOp : World :=
  { wPlain with fromUrl := fun _ => .ok bundleOp, fromFile := fun _ => .ok bundleOp }

/-- Like `wOp` but the authority store holds no operators. -/
def wOpEmpty : World := { wOp with authBuilder := .ok ⟨[]⟩ }

/-- Like `wOp` but obtaining the authority-store handle fails. -/
def wOpAuthFail : World := { wOp with authBuilder := .error "auth store failure" }

theorem resolveStep_steps_isResolve (w : World) (source : String) :
    ∀ s ∈ (resolveStep w source).2, s.isResolve = true := by
  unfold resolveStep
  split
  · split
    · intro s hs; simp at hs
    · split
      · intro s hs; simp at hs
      · split <;> (intro s hs; simp at hs; subst hs; rfl)
  · split <;> (intro s hs; simp at hs; subst hs; rfl)

theorem isResolve_facts (s : Step) (h : s.isResolve = true) :
    s.writes = false ∧ s ≠ Step.getAuthBuilder ∧ s ≠ Step.listOperators ∧
      (∀ e, s ≠ Step.buildEnv e) ∧ (∀ t e f, s ≠ Step.render t e f) := by
  cases s <;> simp_all [Step.isResolve, Step.writes]

theorem resolveStep_steps_cases (w : World) (source : String) :
    (resolveStep w source).2 = []
    ∨ (∃ u, (resolveStep w source).2 = [Step.resolveUrl u])
    ∨ (resolveStep w source).2 = [Step.resolveFile source] := by
  unfold resolveStep
  split
  · split
    · simp
    · split
      · simp
      · split <;> simp
  · split <;> simp

theorem resolveStep_local (w : World) (source : String)
    (h : containsSub source "://" = false) :
    (resolveStep w source).2 = [Step.resolveFile source] := by
  unfold resolveStep
  rw [if_neg (by simp [h])]
  split <;> rfl

theorem resolveStep_remote_no_file (w : World) (source : String)
    (h : containsSub source "://" = true) :
    ∀ p, Step.resolveFile p ∉ (resolveStep w source).2 := by
  unfold resolveStep
  rw [if_pos (by simp [h])]
  intro p
  split
  · simp
  · split
    · simp
    · split <;> simp

theorem resolveStep_invalid (w : World) (source : String)
    (h : containsSub source "://" = true)
    (hp : ∀ u, urlParse w.restValid source = Except.ok u → u.scheme = "") :
    ∃ e, resolveStep w source = (Except.error e, []) ∧ e.isInvalidSource = true := by
  unfold resolveStep
  rw [if_pos (by simp [h])]
  cases hu : urlParse w.restValid source with
  | error e => exact ⟨.urlParseErr source, rfl, rfl⟩
  | ok u =>
    have hs : u.scheme = "" := hp u hu
    refine ⟨.invalidURL source, ?_, rfl⟩
    simp [hs]

theorem finishRun_snd (w : World) (source target : String) (b : Bundle)
    (steps : List Step) :
    (finishRun w source target b steps).2 =
      steps ++ [Step.buildEnv (mkEnv target source),
                Step.render target (mkEnv target source) w.traceFlag] := by
  unfold finishRun
  split <;> rfl

theorem finishRun_fst (w : World) (source target : String) (b : Bundle)
    (steps : List Step) :
    (finishRun w source target b steps).1 =
      (w.runResult b target (mkEnv target source) w.traceFlag).map
        (fun m => GenErr.runErr m) := by
  unfold finishRun
  split <;> simp_all

theorem generateAction_resolve_error (w : World) (source target : String)
    (e : GenErr) (steps : List Step)
    (hfe : w.fileExists target = false)
    (h : resolveStep w source = (Except.error e, steps)) :
    generateAction w source target = (some e, steps) := by
  simp [generateAction, hfe, h]

theorem generateAction_op_authFail (w : World) (source target : String)
    (b : Bundle) (steps : List Step) (m : String)
    (hfe : w.fileExists target = false)
    (hres : resolveStep w source = (Except.ok b, steps))
    (hop : b.requires.operator = true)
    (hab : w.authBuilder = Except.error m) :
    generateAction w source target =
      (some (GenErr.authErr m), steps ++ [Step.getAuthBuilder]) := by
  simp [generateAction, hfe, hres, hop, hab]

theorem generateAction_op_empty (w : World) (source target : String)
    (b : Bundle) (steps : List Step) (auth : AuthBuilder)
    (hfe : w.fileExists target = false)
    (hres : resolveStep w source = (Except.ok b, steps))
    (hop : b.requires.operator = true)
    (hab : w.authBuilder = Except.ok auth)
    (he : auth.operators.isEmpty = true) :
    generateAction w source target =
      (some GenErr.noOperatorFound,
       steps ++ [Step.getAuthBuilder, Step.listOperators]) := by
  simp [generateAction, hfe, hres, hop, hab, he]

theorem generateAction_op_pass (w : World) (source target : String)
    (b : Bundle) (steps : List Step) (auth : AuthBuilder)
    (hfe : w.fileExists target = false)
    (hres : resolveStep w source = (Except.ok b, steps))
    (hop : b.requires.operator = true)
    (hab : w.authBuilder = Except.ok auth)
    (he : auth.operators.isEmpty = false) :
    generateAction w source target =
      finishRun w source target b (steps ++ [Step.getAuthBuilder, Step.listOperators]) := by
  simp [generateAction, hfe, hres, hop, hab, he]

theorem generateAction_noop (w : World) (source target : String)
    (b : Bundle) (steps : List Step)
    (hfe : w.fileExists target = false)
    (hres : resolveStep w source = (Except.ok b, steps))
    (hop : b.requires.operator = false) :
    generateAction w source target = finishRun w source target b steps := by
  simp [generateAction, hfe, hres, hop]

theorem generateAction_trace_split (w : World) (source target : String)
    (hfe : w.fileExists target = false) :
    ∃ extra, (generateAction w source target).2 = (resolveStep w source).2 ++ extra
      ∧ (∀ s ∈ extra, s.isResolve = false) ∧ extra.Nodup := by
  rcases hres : resolveStep w source with ⟨r, steps⟩
  cases r with
  | error e =>
    rw [generateAction_resolve_error w source target e steps hfe hres]
    exact ⟨[], by simp, by simp, by simp⟩
  | ok b =>
    by_cases hop : b.requires.operator = true
    · cases hab : w.authBuilder with
      | error m =>
        rw [generateAction_op_authFail w source target b steps m hfe hres hop hab]
        refine ⟨[Step.getAuthBuilder], by simp, ?_, by simp⟩
        intro s hs; simp at hs; subst hs; rfl
      | ok auth =>
        by_cases hemp : auth.operators.isEmpty = true
        · rw [generateAction_op_empty w source target b steps auth hfe hres hop hab hemp]
          refine ⟨[Step.getAuthBuilder, Step.listOperators], by simp, ?_, by simp⟩
          intro s hs; simp at hs; rcases hs with rfl | rfl <;> rfl
        · have hemp' : auth.operators.isEmpty = false := by simpa using hemp
          rw [generateAction_op_pass w source target b steps auth hfe hres hop hab hemp',
            finishRun_snd]
          refine ⟨[Step.getAuthBuilder, Step.listOperators,
            Step.buildEnv (mkEnv target source),
            Step.render target (mkEnv target source) w.traceFlag], by simp, ?_, by simp⟩
          intro s hs; simp at hs; rcases hs with rfl | rfl | rfl | rfl <;> rfl
    · have hop' : b.requires.operator = false := by simpa using hop
      rw [generateAction_noop w source target b steps hfe hres hop', finishRun_snd]
      refine ⟨[Step.buildEnv (mkEnv target source),
        Step.render target (mkEnv target source) w.traceFlag], by simp, ?_, by simp⟩
      intro s hs; simp at hs; rcases hs with rfl | rfl <;> rfl

theorem render_reached_shape (w : World) (source target : String)
    (hex : ∃ t' e f, Step.render t' e f ∈ (generateAction w source target).2) :
    ∃ b resSteps valSteps,
      w.fileExists target = false
      ∧ resolveStep w source = (Except.ok b, resSteps)
      ∧ (valSteps = [] ∨ valSteps = [Step.getAuthBuilder, Step.listOperators])
      ∧ (b.requires.operator = true →
          valSteps = [Step.getAuthBuilder, Step.listOperators]
          ∧ ∃ auth, w.authBuilder = Except.ok auth ∧ auth.operators.isEmpty = false)
      ∧ (generateAction w source target).2
          = resSteps ++ valSteps
            ++ [Step.buildEnv (mkEnv target source),
                Step.render target (mkEnv target source) w.traceFlag] := by
  obtain ⟨t', e, f, hr⟩ := hex
  by_cases hfe : w.fileExists target = true
  · simp [generateAction, hfe] at hr
  · have hfe' : w.fileExists target = false := by simpa using hfe
    rcases hres : resolveStep w source with ⟨r, steps⟩
    have hsteps : ∀ s ∈ steps, s.isResolve = true := by
      have h0 := resolveStep_steps_isResolve w source
      rw [hres] at h0; exact h0
    have hnotin : ∀ t0 e0 f0, Step.render t0 e0 f0 ∉ steps := by
      intro t0 e0 f0 hmem
      have := hsteps _ hmem
      simp [Step.isResolve] at this
    cases r with
    | error er =>
      rw [generateAction_resolve_error w source target er steps hfe' hres] at hr
      exact absurd hr (hnotin _ _ _)
    | ok b =>
      by_cases hop : b.requires.operator = true
      · cases hab : w.authBuilder with
        | error m =>
          rw [generateAction_op_authFail w source target b steps m hfe' hres hop hab] at hr
          simp at hr
          exact absurd hr (hnotin _ _ _)
        | ok auth =>
          by_cases hemp : auth.operators.isEmpty = true
          · rw [generateAction_op_empty w source target b steps auth hfe' hres hop hab hemp] at hr
            simp at hr
            exact absurd hr (hnotin _ _ _)
          · have hemp' : auth.operators.isEmpty = false := by simpa using hemp
            refine ⟨b, steps, [Step.getAuthBuilder, Step.listOperators], hfe', rfl,
              Or.inr rfl, fun _ => ⟨rfl, auth, rfl, hemp'⟩, ?_⟩
            rw [generateAction_op_pass w source target b steps auth hfe' hres hop hab hemp',
              finishRun_snd]
      · have hop' : b.requires.operator = false := by simpa using hop
        refine ⟨b, steps, [], hfe', rfl, Or.inl rfl,
          fun hcon => absurd hcon (by simp [hop']), ?_⟩
        rw [generateAction_noop w source target b steps hfe' hres hop', finishRun_snd]
        simp

theorem render_step_args (w : World) (source target t' : String) (e : Env) (f : Bool)
    (hr : Step.render t' e f ∈ (generateAction w source target).2) :
    t' = target ∧ e = mkEnv target source ∧ f = w.traceFlag := by
  obtain ⟨b, resSteps, valSteps, hfe, hres, hval, _, htrace⟩ :=
    render_reached_shape w source target ⟨t', e, f, hr⟩
  have hsteps : ∀ s ∈ resSteps, s.isResolve = true := by
    have h0 := resolveStep_steps_isResolve w source
    rw [hres] at h0; exact h0
  rw [htrace] at hr
  simp at hr
  rcases hr with hr | hr | hr
  · have := hsteps _ hr
    simp [Step.isResolve] at this
  · rcases hval with rfl | rfl
    · simp at hr
    · simp at hr
  · exact hr

theorem lookupEnv_mkEnv_target (target source : String) :
    lookupEnv (mkEnv target source) "_target" = some (EnvVal.str target) := by
  simp [mkEnv, lookupEnv]

theorem lookupEnv_mkEnv_source (target source : String) :
    lookupEnv (mkEnv target source) "_source" = some (EnvVal.str source) := by
  simp [mkEnv, lookupEnv]

/-- Claim C1: for every target path that already exists, `generateAction`
fails with the target-exists error and performs no further step — the
empty trace shows the source is not resolved, requirements are not
validated, and nothing is rendered (so no filesystem entry is created);
in particular the existence check happens before validation. -/
theorem targetExists_aborts_run (w : World) (source target : String)
    (h : w.fileExists target = true) :
    generateAction w source target = (some (GenErr.targetExists target), []) := by
  simp [generateAction, h]

/-- Witness for C1: in the concrete world `wPlain` the path "/occupied"
exists, and the run aborts with the target-exists error and an empty
trace. -/
theorem targetExists_aborts_run_witness :
    wPlain.fileExists "/occupied" = true ∧
      generateAction wPlain "bundle.yaml" "/occupied" =
        (some (GenErr.targetExists "/occupied"), []) :=
  ⟨by decide, targetExists_aborts_run wPlain "bundle.yaml" "/occupied" (by decide)⟩

/-- Claim C3: when the resolved bundle requires an operator and the
authority store reports an empty operator list, the run fails with the
requirement-not-met error ("no operator found"), the renderer is never
invoked, and no step of the trace writes under the target. -/
theorem operator_required_empty_store_fails (w : World) (source target : String)
    (b : Bundle) (steps : List Step) (auth : AuthBuilder)
    (hfe : w.fileExists target = false)
    (hres : resolveStep w source = (Except.ok b, steps))
    (hop : b.requires.operator = true)
    (hab : w.authBuilder = Except.ok auth)
    (hempty : auth.operators = []) :
    generateAction w source target =
        (some GenErr.noOperatorFound,
         steps ++ [Step.getAuthBuilder, Step.listOperators])
      ∧ (∀ t e f, Step.render t e f ∉ (generateAction w source target).2)
      ∧ (∀ s ∈ (generateAction w source target).2, s.writes = false) := by
  have he : auth.operators.isEmpty = true := by simp [hempty]
  have hg := generateAction_op_empty w source target b steps auth hfe hres hop hab he
  have hsteps : ∀ s ∈ steps, s.isResolve = true := by
    have h0 := resolveStep_steps_isResolve w source
    rw [hres] at h0; exact h0
  refine ⟨hg, ?_, ?_⟩
  · intro t e f hmem
    rw [hg] at hmem
    simp at hmem
    have := hsteps _ hmem
    simp [Step.isResolve] at this
  · intro s hs
    rw [hg] at hs
    simp at hs
    rcases hs with hs | rfl | rfl
    · exact (isResolve_facts s (hsteps s hs)).1
    · rfl
    · rfl

/-- Witness for C3: in `wOpEmpty` the bundle requires an operator and the
store is empty; the run fails with the no-operator error, the renderer is
never invoked, and no trace step writes. -/
theorem operator_required_empty_store_fails_witness :
    (wOpEmpty.fileExists "tgt" = false
      ∧ resolveStep wOpEmpty "bundle.yaml" =
          (Except.ok bundleOp, [Step.resolveFile "bundle.yaml"])
      ∧ bundleOp.requires.operator = true
      ∧ wOpEmpty.authBuilder = Except.ok ⟨[]⟩)
    ∧ (generateAction wOpEmpty "bundle.yaml" "tgt" =
        (some GenErr.noOperatorFound,
         [Step.resolveFile "bundle.yaml"] ++ [Step.getAuthBuilder, Step.listOperators])
      ∧ (∀ t e f, Step.render t e f ∉ (generateAction wOpEmpty "bundle.yaml" "tgt").2)
      ∧ (∀ s ∈ (generateAction wOpEmpty "bundle.yaml" "tgt").2, s.writes = false)) :=
  ⟨⟨rfl, rfl, rfl, rfl⟩,
    operator_required_empty_store_fails wOpEmpty "bundle.yaml" "tgt" bundleOp
      [Step.resolveFile "bundle.yaml"] ⟨[]⟩ rfl rfl rfl rfl rfl⟩

/-- Claim C9: when the resolved bundle does not require an operator, the
authority store is never consulted: neither the handle acquisition nor the
operator listing appears in the trace. -/
theorem no_auth_query_when_not_required (w : World) (source target : String)
    (hop : ∀ b steps, resolveStep w source = (Except.ok b, steps) →
      b.requires.operator = false) :
    Step.getAuthBuilder ∉ (generateAction w source target).2
      ∧ Step.listOperators ∉ (generateAction w source target).2 := by
  by_cases hfe : w.fileExists target = true
  · simp [generateAction, hfe]
  · have hfe' : w.fileExists target = false := by simpa using hfe
    rcases hres : resolveStep w source with ⟨r, steps⟩
    have hsteps : ∀ s ∈ steps, s.isResolve = true := by
      have h0 := resolveStep_steps_isResolve w source
      rw [hres] at h0; exact h0
    cases r with
    | error e =>
      rw [generateAction_resolve_error w source target e steps hfe' hres]
      constructor <;>
        (intro hmem; have := hsteps _ hmem; simp [Step.isResolve] at this)
    | ok b =>
      have hb : b.requires.operator = false := hop b steps hres
      rw [generateAction_noop w source target b steps hfe' hres hb, finishRun_snd]
      constructor <;>
        (intro hmem; simp at hmem; have := hsteps _ hmem;
         simp [Step.isResolve] at this)

/-- Witness for C9: in `wPlain` the resolved bundle does not require an
operator, and the trace contains no authority-store step. -/
theorem no_auth_query_when_not_required_witness :
    (∀ b steps, resolveStep wPlain "bundle.yaml" = (Except.ok b, steps) →
        b.requires.operator = false)
    ∧ (Step.getAuthBuilder ∉ (generateAction wPlain "bundle.yaml" "tgt").2
        ∧ Step.listOperators ∉ (generateAction wPlain "bundle.yaml" "tgt").2) := by
  have hyp : ∀ b steps, resolveStep wPlain "bundle.yaml" = (Except.ok b, steps) →
      b.requires.operator = false := by
    intro b steps h
    have h2 : (Except.ok bundlePlain : Except GenErr Bundle) = Except.ok b :=
      congrArg Prod.fst h
    cases h2
    rfl
  exact ⟨hyp, no_auth_query_when_not_required wPlain "bundle.yaml" "tgt" hyp⟩

/-- Claim C10: when the resolved bundle requires an operator and the
authority-store handle itself cannot be obtained, the run terminates with
that error — distinct from the requirement-not-met error — and no trace
step writes, so no file is written. -/
theorem auth_handle_failure_terminates (w : World) (source target : String)
    (b : Bundle) (steps : List Step) (m : String)
    (hfe : w.fileExists target = false)
    (hres : resolveStep w source = (Except.ok b, steps))
    (hop : b.requires.operator = true)
    (hab : w.authBuilder = Except.error m) :
    generateAction w source target =
        (some (GenErr.authErr m), steps ++ [Step.getAuthBuilder])
      ∧ GenErr.authErr m ≠ GenErr.noOperatorFound
      ∧ (∀ s ∈ (generateAction w source target).2, s.writes = false) := by
  have hg := generateAction_op_authFail w source target b steps m hfe hres hop hab
  have hsteps : ∀ s ∈ steps, s.isResolve = true := by
    have h0 := resolveStep_steps_isResolve w source
    rw [hres] at h0; exact h0
  refine ⟨hg, by simp, ?_⟩
  intro s hs
  rw [hg] at hs
  simp at hs
  rcases hs with hs | rfl
  · exact (isResolve_facts s (hsteps s hs)).1
  · rfl

/-- Witness for C10: in `wOpAuthFail` the handle acquisition fails and the
run terminates with that (non-requirement) error, writing nothing. -/
theorem auth_handle_failure_terminates_witness :
    (wOpAuthFail.fileExists "tgt" = false
      ∧ wOpAuthFail.authBuilder = Except.error "auth store failure")
    ∧ (generateAction wOpAuthFail "bundle.yaml" "tgt" =
        (some (GenErr.authErr "auth store failure"),
         [Step.resolveFile "bundle.yaml"] ++ [Step.getAuthBuilder])
      ∧ GenErr.authErr "auth store failure" ≠ GenErr.noOperatorFound
      ∧ (∀ s ∈ (generateAction wOpAuthFail "bundle.yaml" "tgt").2, s.writes = false)) :=
  ⟨⟨rfl, rfl⟩,
    auth_handle_failure_terminates wOpAuthFail "bundle.yaml" "tgt" bundleOp
      [Step.resolveFile "bundle.yaml"] "auth store failure" rfl rfl rfl rfl⟩

/-- Claim C5: in every run that reaches rendering, the environment handed
to the renderer maps the reserved key "_target" to the destination path
exactly as given on the command line and "_source" to the original source
descriptor string, both always present; the render target is the path as
given. -/
theorem env_reserved_keys_present (w : World) (source target t' : String)
    (e : Env) (f : Bool)
    (hr : Step.render t' e f ∈ (generateAction w source target).2) :
    lookupEnv e "_target" = some (EnvVal.str target)
      ∧ lookupEnv e "_source" = some (EnvVal.str source)
      ∧ t' = target := by
  obtain ⟨ht, he, _⟩ := render_step_args w source target t' e f hr
  subst he
  exact ⟨lookupEnv_mkEnv_target target source, lookupEnv_mkEnv_source target source, ht⟩

/-- Witness for C5: the successful run of `wPlain` reaches rendering and
the environment carries both reserved keys with the given paths. -/
theorem env_reserved_keys_present_witness :
    (Step.render "tgt" (mkEnv "tgt" "bundle.yaml") wPlain.traceFlag
        ∈ (generateAction wPlain "bundle.yaml" "tgt").2)
    ∧ (lookupEnv (mkEnv "tgt" "bundle.yaml") "_target" = some (EnvVal.str "tgt")
        ∧ lookupEnv (mkEnv "tgt" "bundle.yaml") "_source" = some (EnvVal.str "bundle.yaml")
        ∧ "tgt" = "tgt") :=
  ⟨by decide,
    env_reserved_keys_present wPlain "bundle.yaml" "tgt" "tgt"
      (mkEnv "tgt" "bundle.yaml") wPlain.traceFlag (by decide)⟩

/-- Claim C8: in every run that reaches rendering, the environment built
by the CLI is exactly the two-key reserved environment — its key list is
precisely ["_target", "_source"]; no bundle-declared variable is merged in
by the invoking layer. -/
theorem env_exactly_reserved_keys (w : World) (source target t' : String)
    (e : Env) (f : Bool)
    (hr : Step.render t' e f ∈ (generateAction w source target).2) :
    e = mkEnv target source ∧ e.map Prod.fst = ["_target", "_source"] := by
  obtain ⟨_, he, _⟩ := render_step_args w source target t' e f hr
  subst he
  exact ⟨rfl, rfl⟩

/-- Witness for C8: in the successful `wPlain` run the rendered
environment is the reserved two-key environment and nothing more. -/
theorem env_exactly_reserved_keys_witness :
    (Step.render "tgt" (mkEnv "tgt" "bundle.yaml") wPlain.traceFlag
        ∈ (generateAction wPlain "bundle.yaml" "tgt").2)
    ∧ (mkEnv "tgt" "bundle.yaml" = mkEnv "tgt" "bundle.yaml"
        ∧ (mkEnv "tgt" "bundle.yaml").map Prod.fst = ["_target", "_source"]) :=
  ⟨by decide,
    env_exactly_reserved_keys wPlain "bundle.yaml" "tgt" "tgt"
      (mkEnv "tgt" "bundle.yaml") wPlain.traceFlag (by decide)⟩

/-- The source-classification property of claim C2, for one world, source
and target: (1) a source containing the scheme separator is classified
remote — the local file reader is never invoked; (2) if such a source
moreover fails URL parsing or parses with an empty scheme, the run stops
with an invalid-source error and an empty trace — before any fetch;
(3) a source without the separator is always handed to the local file
reader, whatever other characters (such as a colon) it contains. -/
def c2Prop (w : World) (source target : String) : Prop :=
  (containsSub source "://" = true →
      ∀ p, Step.resolveFile p ∉ (generateAction w source target).2)
  ∧ (containsSub source "://" = true →
      (∀ u, urlParse w.restValid source = Except.ok u → u.scheme = "") →
      ∃ e, generateAction w source target = (some e, []) ∧ e.isInvalidSource = true)
  ∧ (containsSub source "://" = false →
      ∃ rest, (generateAction w source target).2 = Step.resolveFile source :: rest)

/-- Claim C2: classification of the source string by the scheme
separator, as performed by `generateAction`'s switch, for every target
that does not already exist. -/
theorem source_classification (w : World) (source target : String)
    (hfe : w.fileExists target = false) :
    c2Prop w source target := by
  obtain ⟨extra, hsplit, hextra, -⟩ := generateAction_trace_split w source target hfe
  refine ⟨?_, ?_, ?_⟩
  · intro hc p hmem
    rw [hsplit] at hmem
    rcases List.mem_append.mp hmem with hmem | hmem
    · exact resolveStep_remote_no_file w source hc p hmem
    · have := hextra _ hmem
      simp [Step.isResolve] at this
  · intro hc hp
    obtain ⟨e, hres, hinv⟩ := resolveStep_invalid w source hc hp
    exact ⟨e, generateAction_resolve_error w source target e [] hfe hres, hinv⟩
  · intro hc
    rw [hsplit, resolveStep_local w source hc]
    exact ⟨extra, rfl⟩

/-- Witness for C2: the concrete source "foo:bar" contains a colon but no
scheme separator, so the classification property holds for it in
`wPlain`; in particular it is read as a local path. -/
theorem source_classification_witness :
    wPlain.fileExists "tgt" = false ∧ c2Prop wPlain "foo:bar" "tgt" :=
  ⟨by decide, source_classification wPlain "foo:bar" "tgt" (by decide)⟩

/-- Claim C4: in every run, whenever the rendering step — the only step
that writes — appears in the trace, source resolution succeeded,
requirement validation succeeded (when the bundle required an operator,
the store was consulted and found non-empty), the trace has the fixed
shape resolve steps, then validation steps, then environment build, then
render as the final step, and every step before the render is
non-writing: no file is written before all requirements have passed. -/
theorem render_only_after_validation (w : World) (source target t' : String)
    (e : Env) (f : Bool)
    (hr : Step.render t' e f ∈ (generateAction w source target).2) :
    ∃ b resSteps valSteps,
      resolveStep w source = (Except.ok b, resSteps)
      ∧ (valSteps = [] ∨ valSteps = [Step.getAuthBuilder, Step.listOperators])
      ∧ (b.requires.operator = true →
          ∃ auth, w.authBuilder = Except.ok auth ∧ auth.operators.isEmpty = false)
      ∧ (generateAction w source target).2
          = resSteps ++ valSteps
            ++ [Step.buildEnv (mkEnv target source),
                Step.render target (mkEnv target source) w.traceFlag]
      ∧ (∀ s ∈ resSteps ++ valSteps ++ [Step.buildEnv (mkEnv target source)],
          s.writes = false) := by
  obtain ⟨b, resSteps, valSteps, hfe, hres, hval, hopimp, htrace⟩ :=
    render_reached_shape w source target ⟨t', e, f, hr⟩
  have hsteps : ∀ s ∈ resSteps, s.isResolve = true := by
    have h0 := resolveStep_steps_isResolve w source
    rw [hres] at h0; exact h0
  refine ⟨b, resSteps, valSteps, hres, hval, fun h => (hopimp h).2, htrace, ?_⟩
  intro s hs
  simp at hs
  rcases hs with hs | hs | rfl
  · exact (isResolve_facts s (hsteps s hs)).1
  · rcases hval with rfl | rfl
    · simp at hs
    · simp at hs
      rcases hs with rfl | rfl <;> rfl
  · rfl

/-- Witness for C4: the successful `wPlain` run reaches rendering, and the
trace decomposes as the claim states. -/
theorem render_only_after_validation_witness :
    (Step.render "tgt" (mkEnv "tgt" "bundle.yaml") wPlain.traceFlag
        ∈ (generateAction wPlain "bundle.yaml" "tgt").2)
    ∧ (∃ b resSteps valSteps,
        resolveStep wPlain "bundle.yaml" = (Except.ok b, resSteps)
        ∧ (valSteps = [] ∨ valSteps = [Step.getAuthBuilder, Step.listOperators])
        ∧ (b.requires.operator = true →
            ∃ auth, wPlain.authBuilder = Except.ok auth ∧ auth.operators.isEmpty = false)
        ∧ (generateAction wPlain "bundle.yaml" "tgt").2
            = resSteps ++ valSteps
              ++ [Step.buildEnv (mkEnv "tgt" "bundle.yaml"),
                  Step.render "tgt" (mkEnv "tgt" "bundle.yaml") wPlain.traceFlag]
        ∧ (∀ s ∈ resSteps ++ valSteps ++ [Step.buildEnv (mkEnv "tgt" "bundle.yaml")],
            s.writes = false)) :=
  ⟨by decide,
    render_only_after_validation wPlain "bundle.yaml" "tgt" "tgt"
      (mkEnv "tgt" "bundle.yaml") wPlain.traceFlag (by decide)⟩

theorem relOf_join (t p : String) : relOf t (t ++ "/" ++ p) = p := by
  have hl : (t.data ++ ['/']).length = t.data.length + 1 := by simp
  have hd : (t ++ "/" ++ p).data = (t.data ++ ['/']) ++ p.data := rfl
  unfold relOf
  rw [hd]
  show String.mk (((t.data ++ ['/']) ++ p.data).drop (t.data.length + 1)) = p
  rw [← hl, List.drop_left]

/-- Claim C6: rendering is a deterministic function of the bundle and the
environment — running the (spec-modelled) engine twice with the same
bundle and the same environment into two distinct fresh target paths
produces byte-identical output trees, once each tree is taken relative to
its target. -/
theorem scaffold_run_deterministic (fe : String → Bool) (t1 t2 : String)
    (b : Bundle) (env : Env) (f1 f2 : Bool)
    (h1 : fe t1 = false) (h2 : fe t2 = false) :
    relTree t1 (scaffoldRun fe t1 b env f1) = relTree t2 (scaffoldRun fe t2 b env f2) := by
  unfold scaffoldRun
  rw [h1, h2]
  simp only [Bool.false_eq_true, if_false]
  cases hre : runEntries env b.entries with
  | error m => simp [relTree]
  | ok tree =>
    simp only [relTree, List.map_map]
    congr 1
    apply List.map_congr_left
    intro pr _
    simp [Function.comp, relOf_join]

/-- Witness for C6: rendering `bundlePlain` with the same environment
into the fresh targets "out1" and "out2" yields the same relative tree. -/
theorem scaffold_run_deterministic_witness :
    ((fun s => s == "/occupied") "out1" = false
      ∧ (fun s => s == "/occupied") "out2" = false)
    ∧ relTree "out1"
        (scaffoldRun (fun s => s == "/occupied") "out1" bundlePlain
          [("name", EnvVal.str "world")] false)
      = relTree "out2"
        (scaffoldRun (fun s => s == "/occupied") "out2" bundlePlain
          [("name", EnvVal.str "world")] false) :=
  ⟨⟨by decide, by decide⟩,
    scaffold_run_deterministic (fun s => s == "/occupied") "out1" "out2"
      bundlePlain [("name", EnvVal.str "world")] false false (by decide) (by decide)⟩

/-- The error-propagation property of claim C7 for one world, source and
target: (a) a resolution failure is returned as the final outcome
unmodified, with validation and rendering skipped; (b) an
authority-handle failure is final and rendering is skipped; (c) an unmet
operator requirement is final and rendering is skipped; (d) a renderer
failure surfaces unmodified as the final outcome; (e) no stage is ever
retried — the trace never repeats a step; (f) there is no partial
success — a nil outcome means every stage succeeded. -/
def c7Prop (w : World) (source target : String) : Prop :=
  (∀ e steps, resolveStep w source = (Except.error e, steps) →
      generateAction w source target = (some e, steps)
      ∧ Step.getAuthBuilder ∉ steps ∧ Step.listOperators ∉ steps
      ∧ ∀ t' env f, Step.render t' env f ∉ steps)
  ∧ (∀ b steps m, resolveStep w source = (Except.ok b, steps) →
      b.requires.operator = true → w.authBuilder = Except.error m →
      generateAction w source target
        = (some (GenErr.authErr m), steps ++ [Step.getAuthBuilder])
      ∧ ∀ t' env f, Step.render t' env f ∉ steps ++ [Step.getAuthBuilder])
  ∧ (∀ b steps auth, resolveStep w source = (Except.ok b, steps) →
      b.requires.operator = true → w.authBuilder = Except.ok auth →
      auth.operators.isEmpty = true →
      generateAction w source target
        = (some GenErr.noOperatorFound,
           steps ++ [Step.getAuthBuilder, Step.listOperators])
      ∧ ∀ t' env f,
          Step.render t' env f ∉ steps ++ [Step.getAuthBuilder, Step.listOperators])
  ∧ (∀ b steps m, resolveStep w source = (Except.ok b, steps) →
      (b.requires.operator = true →
        ∃ auth, w.authBuilder = Except.ok auth ∧ auth.operators.isEmpty = false) →
      w.runResult b target (mkEnv target source) w.traceFlag = some m →
      (generateAction w source target).1 = some (GenErr.runErr m))
  ∧ (generateAction w source target).2.Nodup
  ∧ ((generateAction w source target).1 = none →
      ∃ b steps, resolveStep w source = (Except.ok b, steps)
        ∧ (b.requires.operator = true →
            ∃ auth, w.authBuilder = Except.ok auth ∧ auth.operators.isEmpty = false)
        ∧ w.runResult b target (mkEnv target source) w.traceFlag = none)

/-- Claim C7: for every run whose target does not already exist, the
first error of any pipeline stage is the run's final outcome, later
stages are skipped, no stage is retried, and there is no partial-success
result. -/
theorem first_error_is_final_outcome (w : World) (source target : String)
    (hfe : w.fileExists target = false) :
    c7Prop w source target := by
  have hsteps : ∀ s ∈ (resolveStep w source).2, s.isResolve = true :=
    resolveStep_steps_isResolve w source
  refine ⟨?_, ?_, ?_, ?_, ?_, ?_⟩
  · intro e steps hres
    have hst := hsteps; rw [hres] at hst
    refine ⟨generateAction_resolve_error w source target e steps hfe hres, ?_, ?_, ?_⟩
    · intro hmem; have := hst _ hmem; simp [Step.isResolve] at this
    · intro hmem; have := hst _ hmem; simp [Step.isResolve] at this
    · intro t' env f hmem; have := hst _ hmem; simp [Step.isResolve] at this
  · intro b steps m hres hop hab
    have hst := hsteps; rw [hres] at hst
    refine ⟨generateAction_op_authFail w source target b steps m hfe hres hop hab, ?_⟩
    intro t' env f hmem
    simp at hmem
    have := hst _ hmem
    simp [Step.isResolve] at this
  · intro b steps auth hres hop hab hemp
    have hst := hsteps; rw [hres] at hst
    refine ⟨generateAction_op_empty w source target b steps auth hfe hres hop hab hemp, ?_⟩
    intro t' env f hmem
    simp at hmem
    have := hst _ hmem
    simp [Step.isResolve] at this
  · intro b steps m hres hpass hrun
    by_cases hop : b.requires.operator = true
    · obtain ⟨auth, hab, hne⟩ := hpass hop
      rw [generateAction_op_pass w source target b steps auth hfe hres hop hab hne,
        finishRun_fst, hrun]
      rfl
    · have hop' : b.requires.operator = false := by simpa using hop
      rw [generateAction_noop w source target b steps hfe hres hop', finishRun_fst, hrun]
      rfl
  · obtain ⟨extra, hsplit, hextraNR, hextraND⟩ :=
      generateAction_trace_split w source target hfe
    rw [hsplit]
    have hdisj : (resolveStep w source).2.Disjoint extra := by
      intro s hs1 hs2
      have hA := hsteps _ hs1
      have hB := hextraNR _ hs2
      rw [hA] at hB
      exact Bool.noConfusion hB
    have hndres : (resolveStep w source).2.Nodup := by
      rcases resolveStep_steps_cases w source with h | ⟨u, h⟩ | h <;> rw [h] <;> simp
    exact hndres.append hextraND hdisj
  · intro hnone
    rcases hres : resolveStep w source with ⟨r, steps⟩
    cases r with
    | error e =>
      rw [generateAction_resolve_error w source target e steps hfe hres] at hnone
      simp at hnone
    | ok b =>
      by_cases hop : b.requires.operator = true
      · cases hab : w.authBuilder with
        | error m =>
          rw [generateAction_op_authFail w source target b steps m hfe hres hop hab] at hnone
          simp at hnone
        | ok auth =>
          by_cases hemp : auth.operators.isEmpty = true
          · rw [generateAction_op_empty w source target b steps auth hfe hres hop hab hemp]
              at hnone
            simp at hnone
          · have hemp' : auth.operators.isEmpty = false := by simpa using hemp
            rw [generateAction_op_pass w source target b steps auth hfe hres hop hab hemp',
              finishRun_fst] at hnone
            refine ⟨b, steps, rfl, fun _ => ⟨auth, rfl, hemp'⟩, ?_⟩
            cases hrr : w.runResult b target (mkEnv target source) w.traceFlag with
            | none => rfl
            | some m => rw [hrr] at hnone; simp at hnone
      · have hop' : b.requires.operator = false := by simpa using hop
        rw [generateAction_noop w source target b steps hfe hres hop', finishRun_fst] at hnone
        refine ⟨b, steps, rfl, fun hcon => absurd hcon (by simp [hop']), ?_⟩
        cases hrr : w.runResult b target (mkEnv target source) w.traceFlag with
        | none => rfl
        | some m => rw [hrr] at hnone; simp at hnone

/-- Witness for C7: the propagation property instantiated in the concrete
world `wPlain` at a fresh target. -/
theorem first_error_is_final_outcome_witness :
    wPlain.fileExists "tgt" = false ∧ c7Prop wPlain "bundle.yaml" "tgt" :=
  ⟨by decide, first_error_is_final_outcome wPlain "bundle.yaml" "tgt" (by decide)⟩
